import Mathlib

/-!
Verification of the CubeFS prefetch / batch-download engine
(`client/sdk/data/stream` PrefetchManager) against its specification.

Pure Lean embeddings of the Go functions, translated statement by
statement from the source.  External collaborators (filesystem client,
block-buffer pool, `cache.DentryCache`) are modelled as explicit
parameters or, where the repository code is not available, from the
specification's contract for them.
-/

namespace Prefetch

/-- Association-list store: replace the binding of `k` if present, else append
at the head position where Go `sync.Map.Store` would make it visible. -/
def assocStore {κ β : Type} [DecidableEq κ] : List (κ × β) → κ → β → List (κ × β)
  | [], k, v => [(k, v)]
  | (k', v') :: rest, k, v =>
    if k' = k then (k, v) :: rest else (k', v') :: assocStore rest k v

/-- Association-list lookup (model of `sync.Map.Load`). -/
def assocFind {κ β : Type} [DecidableEq κ] : List (κ × β) → κ → Option β
  | [], _ => none
  | (k', v) :: rest, k => if k' = k then some v else assocFind rest k

/-- Association-list delete (model of `sync.Map.Delete`). -/
def assocErase {κ β : Type} [DecidableEq κ] (m : List (κ × β)) (k : κ) : List (κ × β) :=
  m.filter (fun e => !(decide (e.1 = k)))

/-- Big-endian encoding of a 64-bit value into 8 bytes, as
`binary.BigEndian.PutUint64` lays them out (`b[0] = byte(v >> 56)` … `b[7] = byte(v)`). -/
def putUint64BE (v : Nat) : List Nat :=
  [v / 2 ^ 56 % 256, v / 2 ^ 48 % 256, v / 2 ^ 40 % 256, v / 2 ^ 32 % 256,
   v / 2 ^ 24 % 256, v / 2 ^ 16 % 256, v / 2 ^ 8 % 256, v % 256]

/-- UTF-8 encoding of one character (the Go string bytes). -/
def charUtf8 (c : Char) : List Nat :=
  let n := c.toNat
  if n < 0x80 then [n]
  else if n < 0x800 then [0xC0 + n / 64, 0x80 + n % 64]
  else if n < 0x10000 then
    [0xE0 + n / 4096, 0x80 + n / 64 % 64, 0x80 + n % 64]
  else
    [0xF0 + n / 262144, 0x80 + n / 4096 % 64, 0x80 + n / 64 % 64, 0x80 + n % 64]

/-- The byte sequence of a Go string (UTF-8); `len(s)` in Go is its length. -/
def utf8Bytes (s : String) : List Nat :=
  s.data.flatMap charUtf8

/-- FileInfo from the source: a path, a resolved inode id (0 = unresolved),
and the absolute-path flag. -/
structure FileInfo where
  path : String
  inoID : Nat
  isAbs : Bool
deriving Repr, DecidableEq

/-- DownloadFileInfo from the source: absolute path, optional FileInfo
(`nil` pointer modelled as `none`), and the id of its response writer
(`resp *BatchDownloadRespWriter`). -/
structure DownloadJob where
  absPath : String
  fileInfo : Option FileInfo
  respId : Nat
deriving Repr, DecidableEq

/-- Environment for one `ReadData` invocation: the outcomes of the
external-collaborator calls the handler makes, in the order the source makes them. -/
structure DlEnv where
  /-- Outcome of `pManager.LookupPathByCache(absPath)`. -/
  resolve : String → Except String Nat
  /-- Outcome of `ec.OpenStream(ino)`: `some err` on failure. -/
  openStream : Nat → Option String
  /-- Outcome of `ec.FileSize(ino)`: `(size, valid)` (middle return unused). -/
  fileSize : Nat → Nat × Bool
  /-- Outcome of `ec.Read(...)`: error, or the returned read size. -/
  readResult : Except String Nat
  /-- Bytes `ec.Read` deposits at the start of the content buffer. -/
  fileBytes : List Nat

/-- Observable effects of one `ReadData` run. -/
structure ReadDataOut where
  /-- Final value of the named return `err`. -/
  err : Option String
  /-- Records passed to `dInfo.resp.write`. -/
  written : List (List Nat)
  /-- Number of `dInfo.resp.Wg.Done()` calls. -/
  wgDone : Nat
  /-- Sizes requested from the pool via `GetBlockBuf`, in order. -/
  acquired : List Nat
  /-- Number of `PutBlockBuf` calls. -/
  releasedCount : Nat
  /-- Inodes passed to `ec.OpenStream` successfully. -/
  opened : List Nat
  /-- Inodes passed to `ec.CloseStream`. -/
  closedStreams : List Nat
deriving Repr, DecidableEq

/-- The framed record that the deferred block of `ReadData` builds when
`err == nil && readSize > 0`: length prefix, path bytes, size prefix,
first `n` content bytes. -/
def readDataRecord (pathBytes fileBytes : List Nat) (n : Nat) : List Nat :=
  putUint64BE pathBytes.length ++ pathBytes ++ putUint64BE n ++ fileBytes.take n

/-- Inode determination at the head of `ReadData` (lines 653-660): use the
job's resolved inode when the `FileInfo` pointer is non-nil with a non-zero
inode, otherwise resolve the absolute path through `LookupPathByCache`. -/
def downloadInode (env : DlEnv) (d : DownloadJob) : Except String Nat :=
  match d.fileInfo with
  | none => env.resolve d.absPath
  | some fi => if fi.inoID = 0 then env.resolve d.absPath else .ok fi.inoID

/-- Shallow embedding of `PrefetchManager.ReadData` (part_000 lines 626-682).
Every control path of the source is reproduced; the deferred function's
effects (framing, buffer releases, `Wg.Done`) are folded into each exit. -/
def ReadData (env : DlEnv) (d : DownloadJob) : ReadDataOut :=
  match downloadInode env d with
  | .error e => ⟨some e, [], 1, [], 0, [], []⟩
  | .ok ino =>
    match env.openStream ino with
    | some e => ⟨some e, [], 1, [], 0, [], []⟩
    | none =>
      if (env.fileSize ino).2 = false ∨ (env.fileSize ino).1 = 0 then
        ⟨some "file size invalid", [], 1, [], 0, [ino], [ino]⟩
      else
        match env.readResult with
        | .error e => ⟨some e, [], 1, [(env.fileSize ino).1], 0, [ino], [ino]⟩
        | .ok n =>
          if 0 < n then
            ⟨none, [readDataRecord (utf8Bytes d.absPath) env.fileBytes n], 1,
              [(env.fileSize ino).1, 16 + (utf8Bytes d.absPath).length + n], 2,
              [ino], [ino]⟩
          else
            ⟨none, [], 1, [(env.fileSize ino).1], 0, [ino], [ino]⟩

/-- Shallow embedding of `PrefetchManager.putDownloadChan` (lines 791-801):
under the closed flag nothing happens and the enqueue is rejected; otherwise
`dInfo.resp.Wg.Add(1)` then the job is appended to the channel. `wgs` maps a
response-writer id to its wait-group counter. -/
def putDownloadChan (isClosed : Bool) (wgs : Nat → Int) (q : List DownloadJob)
    (d : DownloadJob) : (Nat → Int) × List DownloadJob × Bool :=
  if isClosed then (wgs, q, false)
  else (fun r => if r = d.respId then wgs r + 1 else wgs r, q ++ [d], true)

/-- Shallow embedding of `PrefetchManager.clearDownloadChan` (lines 803-813):
drain the queue, calling `dInfo.resp.Wg.Done()` for each pending job. -/
def clearDownloadChan (wgs : Nat → Int) : List DownloadJob → (Nat → Int)
  | [] => wgs
  | d :: rest =>
    clearDownloadChan (fun r => if r = d.respId then wgs r - 1 else wgs r) rest

theorem putUint64BE_length (v : Nat) : (putUint64BE v).length = 8 := rfl

theorem readDataRecord_length (p fb : List Nat) (n : Nat) (h : n ≤ fb.length) :
    (readDataRecord p fb n).length = 16 + p.length + n := by
  simp [readDataRecord, putUint64BE, List.length_append, List.length_take]
  omega

theorem readDataRecord_take8 (p fb : List Nat) (n : Nat) :
    (readDataRecord p fb n).take 8 = putUint64BE p.length := by
  rw [readDataRecord, List.append_assoc, List.append_assoc,
    List.take_left' (putUint64BE_length p.length)]

theorem readDataRecord_path (p fb : List Nat) (n : Nat) :
    ((readDataRecord p fb n).drop 8).take p.length = p := by
  rw [readDataRecord, List.append_assoc, List.append_assoc,
    List.drop_left' (putUint64BE_length p.length)]
  exact List.take_left _ _

theorem readDataRecord_size (p fb : List Nat) (n : Nat) :
    ((readDataRecord p fb n).drop (8 + p.length)).take 8 = putUint64BE n := by
  have hlen : (putUint64BE p.length ++ p).length = 8 + p.length := by
    simp [putUint64BE]
    omega
  rw [readDataRecord, List.append_assoc (putUint64BE p.length ++ p),
    List.drop_left' hlen, List.take_left' (putUint64BE_length n)]

theorem readDataRecord_tail (p fb : List Nat) (n : Nat) :
    (readDataRecord p fb n).drop (16 + p.length) = fb.take n := by
  have hlen : ((putUint64BE p.length ++ p) ++ putUint64BE n).length = 16 + p.length := by
    simp [putUint64BE]
    omega
  rw [readDataRecord, List.drop_left' hlen]

/-- C1: for every download job whose read succeeds with `n > 0` bytes for
absolute path `p`, the record written to the response writer is exactly
`16 + len(p) + n` bytes: the big-endian uint64 `len(p)`, the UTF-8 bytes of
`p`, the big-endian uint64 `n`, then the first `n` bytes of the file
content; and concretely for `p = "/mnt/v/d1/f1"` and content `"abc"` the
record is the 40 bytes `00..0C "/mnt/v/d1/f1" 00..03 "abc"`. -/
theorem download_record_layout :
    (∀ (env : DlEnv) (d : DownloadJob) (ino fsz n : Nat),
      downloadInode env d = .ok ino →
      env.openStream ino = none →
      env.fileSize ino = (fsz, true) →
      fsz ≠ 0 →
      env.readResult = .ok n →
      0 < n →
      n ≤ env.fileBytes.length →
      (ReadData env d).written =
        [readDataRecord (utf8Bytes d.absPath) env.fileBytes n] ∧
      (readDataRecord (utf8Bytes d.absPath) env.fileBytes n).length =
        16 + (utf8Bytes d.absPath).length + n ∧
      (readDataRecord (utf8Bytes d.absPath) env.fileBytes n).take 8 =
        putUint64BE (utf8Bytes d.absPath).length ∧
      ((readDataRecord (utf8Bytes d.absPath) env.fileBytes n).drop 8).take
          (utf8Bytes d.absPath).length = utf8Bytes d.absPath ∧
      ((readDataRecord (utf8Bytes d.absPath) env.fileBytes n).drop
          (8 + (utf8Bytes d.absPath).length)).take 8 = putUint64BE n ∧
      (readDataRecord (utf8Bytes d.absPath) env.fileBytes n).drop
          (16 + (utf8Bytes d.absPath).length) = env.fileBytes.take n) ∧
    readDataRecord (utf8Bytes "/mnt/v/d1/f1") [97, 98, 99] 3 =
      [0, 0, 0, 0, 0, 0, 0, 12,
       47, 109, 110, 116, 47, 118, 47, 100, 49, 47, 102, 49,
       0, 0, 0, 0, 0, 0, 0, 3, 97, 98, 99] := by
  refine ⟨?_, by decide⟩
  intro env d ino fsz n hIno hOpen hSize hFsz hRead hPos hLe
  refine ⟨?_, readDataRecord_length _ _ _ hLe, readDataRecord_take8 _ _ _,
    readDataRecord_path _ _ _, readDataRecord_size _ _ _, readDataRecord_tail _ _ _⟩
  unfold ReadData
  rw [hIno]
  simp [hOpen, hSize, hRead, hFsz, hPos]

/-- Witness for C1 at the concrete scenario of the claim: path
`"/mnt/v/d1/f1"`, file content `"abc"`, read size 3. -/
theorem download_record_layout_witness :
    downloadInode
      ⟨fun _ => .ok 101, fun _ => none, fun _ => (3, true), .ok 3, [97, 98, 99]⟩
      ⟨"/mnt/v/d1/f1", none, 0⟩ = .ok 101 ∧
    (ReadData
      ⟨fun _ => .ok 101, fun _ => none, fun _ => (3, true), .ok 3, [97, 98, 99]⟩
      ⟨"/mnt/v/d1/f1", none, 0⟩).written =
      [readDataRecord (utf8Bytes "/mnt/v/d1/f1") [97, 98, 99] 3] := by
  refine ⟨rfl, ?_⟩
  exact (download_record_layout.1
    ⟨fun _ => .ok 101, fun _ => none, fun _ => (3, true), .ok 3, [97, 98, 99]⟩
    ⟨"/mnt/v/d1/f1", none, 0⟩ 101 3 3 rfl rfl rfl (by decide) rfl (by decide)
    (by decide)).1

/-- C2: wait-group conservation for download jobs.  A successful
`putDownloadChan` increments the job's response-writer wait-group by exactly
one (other writers untouched); an enqueue rejected because the manager is
closed changes nothing; every exit path of the `ReadData` handler performs
exactly one `Wg.Done`; and the shutdown drain `clearDownloadChan` performs
one `Wg.Done` per pending job on that job's writer. -/
theorem download_waitgroup_conservation :
    (∀ (wgs : Nat → Int) (q : List DownloadJob) (d : DownloadJob),
      (putDownloadChan false wgs q d).2.2 = true ∧
      (putDownloadChan false wgs q d).1 d.respId = wgs d.respId + 1 ∧
      (∀ r, r ≠ d.respId → (putDownloadChan false wgs q d).1 r = wgs r) ∧
      (putDownloadChan false wgs q d).2.1 = q ++ [d]) ∧
    (∀ (wgs : Nat → Int) (q : List DownloadJob) (d : DownloadJob),
      (putDownloadChan true wgs q d).2.2 = false ∧
      (putDownloadChan true wgs q d).1 = wgs ∧
      (putDownloadChan true wgs q d).2.1 = q) ∧
    (∀ (env : DlEnv) (d : DownloadJob), (ReadData env d).wgDone = 1) ∧
    (∀ (wgs : Nat → Int) (q : List DownloadJob) (r : Nat),
      clearDownloadChan wgs q r =
        wgs r - (q.filter (fun d => d.respId = r)).length) := by
  refine ⟨?_, ?_, ?_, ?_⟩
  · intro wgs q d
    refine ⟨rfl, by simp [putDownloadChan], ?_, rfl⟩
    intro r hr
    simp [putDownloadChan, hr]
  · intro wgs q d
    exact ⟨rfl, rfl, rfl⟩
  · intro env d
    unfold ReadData
    split
    · rfl
    · split
      · rfl
      · split
        · rfl
        · split
          · rfl
          · split <;> rfl
  · intro wgs q
    induction q generalizing wgs with
    | nil => intro r; simp [clearDownloadChan]
    | cons d rest ih =>
      intro r
      rw [clearDownloadChan, ih]
      by_cases hr : d.respId = r <;> simp [hr] <;> omega

/-- Witness for C2: concrete enqueue, handler run, and drain. -/
theorem download_waitgroup_conservation_witness :
    (putDownloadChan false (fun _ => 0) [] ⟨"/mnt/v/d1/f1", none, 0⟩).1 0 = 1 ∧
    (putDownloadChan true (fun _ => 0) [] ⟨"/mnt/v/d1/f1", none, 0⟩).2.2 = false ∧
    (ReadData ⟨fun _ => .error "not cfs path", fun _ => none, fun _ => (0, false),
        .error "e", []⟩ ⟨"/elsewhere/x", none, 0⟩).wgDone = 1 ∧
    clearDownloadChan (fun _ => 2)
        [⟨"/mnt/v/d1/f1", none, 0⟩, ⟨"/mnt/v/d1/f2", none, 0⟩] 0 = 0 := by
  refine ⟨?_, ?_, ?_, ?_⟩
  · have h := (download_waitgroup_conservation.1 (fun _ => 0) []
      ⟨"/mnt/v/d1/f1", none, 0⟩).2.1
    simpa using h
  · exact (download_waitgroup_conservation.2.1 (fun _ => 0) []
      ⟨"/mnt/v/d1/f1", none, 0⟩).1
  · exact download_waitgroup_conservation.2.2.1 _ _
  · have h := download_waitgroup_conservation.2.2.2 (fun _ => 2)
      [⟨"/mnt/v/d1/f1", none, 0⟩, ⟨"/mnt/v/d1/f2", none, 0⟩] 0
    simpa using h

/-- C3 evidence: on the read-failure path the handler acquires the content
buffer from the pool (`GetBlockBuf(fileSize)`) but performs no
`PutBlockBuf` before returning — the buffer leaks — while the
`OpenStream`/`CloseStream` pairing does hold on that path.  This
contradicts the claim that every acquired buffer is released on every exit
path including read failure. -/
theorem download_read_failure_buffer_leak :
    (ReadData ⟨fun _ => .ok 101, fun _ => none, fun _ => (3, true),
        .error "read timeout", []⟩ ⟨"/mnt/v/d1/f1", none, 0⟩).acquired = [3] ∧
    (ReadData ⟨fun _ => .ok 101, fun _ => none, fun _ => (3, true),
        .error "read timeout", []⟩ ⟨"/mnt/v/d1/f1", none, 0⟩).releasedCount = 0 ∧
    (ReadData ⟨fun _ => .ok 101, fun _ => none, fun _ => (3, true),
        .error "read timeout", []⟩ ⟨"/mnt/v/d1/f1", none, 0⟩).opened = [101] ∧
    (ReadData ⟨fun _ => .ok 101, fun _ => none, fun _ => (3, true),
        .error "read timeout", []⟩ ⟨"/mnt/v/d1/f1", none, 0⟩).closedStreams = [101] := by
  refine ⟨rfl, rfl, rfl, rfl⟩

/-! ## Absolute-path resolution: `PrefetchManager.LookupPathByCache`
(part_000 lines 728-767).

Go strings are modelled as `List Char`.  `strings.HasPrefix`,
`strings.Split` and the `strings.Replace(s, mountPoint, "", 1)` under the
prefix guard (where the first occurrence is the prefix itself, so the
replacement strips it) are reproduced below.  The external filesystem
lookup `ec.lookup(ino, name)` is a parameter; the per-parent-inode
`lookupDcache` (`cache.DentryCache` values, modelled from the spec:
`Put(name, inode)` / `Get(name) → (inode, present)` as a name→inode map)
is explicit state.  The embedding additionally records the `(parent, name)`
arguments of every `ec.lookup` call and every `dcache.Put`, the latter
tagged with the loop index at which it happened. -/

/-- Name (Go string) as a character list. -/
abbrev GoStr := List Char

/-- Go `strings.HasPrefix(s, pre)`: `listPre pre s`. -/
def listPre : GoStr → GoStr → Bool
  | [], _ => true
  | _ :: _, [] => false
  | p :: ps, c :: cs => p = c && listPre ps cs

/-- Go `strings.Split(s, sep)` for a one-character separator. -/
def goSplit (sep : Char) : GoStr → List GoStr
  | [] => [[]]
  | c :: rest =>
    if c = sep then [] :: goSplit sep rest
    else
      match goSplit sep rest with
      | [] => [[c]]
      | seg :: segs => (c :: seg) :: segs

/-- Result of one `LookupPathByCache` run: the returned value, the final
`lookupDcache` contents, the `ec.lookup` calls made, and the `dcache.Put`
insertions performed, each tagged `(component index, parent inode, name)`. -/
structure LookupOut where
  res : Except String Nat
  cache : List (Nat × List (GoStr × Nat))
  fsCalls : List (Nat × GoStr)
  puts : List (Nat × Nat × GoStr)

/-- The component loop of `LookupPathByCache` (lines 738-762).  `total` is
`len(dirs)`, `idx` the index of the head of the remaining list. -/
def lookupLoop (lk : Nat → GoStr → Option Nat) (total : Nat) :
    List GoStr → Nat → Nat → List (Nat × List (GoStr × Nat)) →
    List (Nat × GoStr) → List (Nat × Nat × GoStr) → LookupOut
  | [], _, ino, m, calls, puts => ⟨.ok ino, m, calls, puts⟩
  | dir :: rest, idx, ino, m, calls, puts =>
    if dir = ['/'] ∨ dir = [] then
      lookupLoop lk total rest (idx + 1) ino m calls puts
    else
      match assocFind m ino with
      | some dc =>
        match assocFind dc dir with
        | some child => lookupLoop lk total rest (idx + 1) child m calls puts
        | none =>
          match lk ino dir with
          | none => ⟨.error "lookup failed", m, calls ++ [(ino, dir)], puts⟩
          | some child =>
            if idx ≠ total - 1 then
              lookupLoop lk total rest (idx + 1) child
                (assocStore m ino ((dir, child) :: dc)) (calls ++ [(ino, dir)])
                (puts ++ [(idx, ino, dir)])
            else
              lookupLoop lk total rest (idx + 1) child m
                (calls ++ [(ino, dir)]) puts
      | none =>
        match lk ino dir with
        | none => ⟨.error "lookup failed", assocStore m ino [],
            calls ++ [(ino, dir)], puts⟩
        | some child =>
          if idx ≠ total - 1 then
            lookupLoop lk total rest (idx + 1) child
              (assocStore m ino [(dir, child)]) (calls ++ [(ino, dir)])
              (puts ++ [(idx, ino, dir)])
          else
            lookupLoop lk total rest (idx + 1) child (assocStore m ino [])
              (calls ++ [(ino, dir)]) puts

/-- Shallow embedding of `PrefetchManager.LookupPathByCache`.  `rootIno`
stands for `proto.RootIno`; `lk` for `ec.lookup` (`none` = error). -/
def LookupPathByCache (mountPoint : GoStr) (lk : Nat → GoStr → Option Nat)
    (rootIno : Nat) (m : List (Nat × List (GoStr × Nat))) (absPath : GoStr) :
    LookupOut :=
  if listPre mountPoint absPath = false then ⟨.error "not cfs path", m, [], []⟩
  else
    if absPath.drop mountPoint.length = [] ∨
        absPath.drop mountPoint.length = ['/'] then
      ⟨.error "not cfs file", m, [], []⟩
    else
      lookupLoop lk (goSplit '/' (absPath.drop mountPoint.length)).length
        (goSplit '/' (absPath.drop mountPoint.length)) 0 rootIno m [] []

/-- When every remaining component is empty (or a bare slash), the loop
skips them all and returns the current inode with no filesystem call,
no cache change and no insertion. -/
theorem lookupLoop_all_empty (lk : Nat → GoStr → Option Nat) (total : Nat)
    (l : List GoStr) (idx ino : Nat) (m : List (Nat × List (GoStr × Nat)))
    (calls : List (Nat × GoStr)) (puts : List (Nat × Nat × GoStr))
    (h : ∀ d ∈ l, d = ['/'] ∨ d = []) :
    lookupLoop lk total l idx ino m calls puts = ⟨.ok ino, m, calls, puts⟩ := by
  induction l generalizing idx with
  | nil => rfl
  | cons d rest ih =>
    rw [lookupLoop, if_pos (h d (List.mem_cons_self d rest))]
    exact ih _ fun x hx => h x (List.mem_cons_of_mem d hx)

/-- Every insertion the loop performs is tagged with a component index
other than `total - 1`. -/
theorem lookupLoop_puts_not_last (lk : Nat → GoStr → Option Nat) (total : Nat)
    (l : List GoStr) (idx ino : Nat) (m : List (Nat × List (GoStr × Nat)))
    (calls : List (Nat × GoStr)) (puts : List (Nat × Nat × GoStr))
    (e : Nat × Nat × GoStr)
    (he : e ∈ (lookupLoop lk total l idx ino m calls puts).puts) :
    e ∈ puts ∨ e.1 ≠ total - 1 := by
  induction l generalizing idx ino m calls puts with
  | nil => exact Or.inl he
  | cons d rest ih =>
    rw [lookupLoop] at he
    split at he
    · exact ih _ _ _ _ _ he
    · split at he
      · -- cache present at the current inode
        split at he
        · exact ih _ _ _ _ _ he
        · split at he
          · exact Or.inl he
          · split at he
            · next hidx =>
              rcases ih _ _ _ _ _ he with hin | hne
              · rcases List.mem_append.1 hin with h1 | h1
                · exact Or.inl h1
                · right
                  rw [List.mem_singleton.1 h1]
                  exact hidx
              · exact Or.inr hne
            · exact ih _ _ _ _ _ he
      · -- cache absent: fresh empty cache stored
        split at he
        · exact Or.inl he
        · split at he
          · next hidx =>
            rcases ih _ _ _ _ _ he with hin | hne
            · rcases List.mem_append.1 hin with h1 | h1
              · exact Or.inl h1
              · right
                rw [List.mem_singleton.1 h1]
                exact hidx
            · exact Or.inr hne
          · exact ih _ _ _ _ _ he

/-- The filesystem used by the two-call resolution scenario:
`a → 100` under the root, `b → 200` under `a`, `c → 300` under `b`. -/
def lkAbc : Nat → GoStr → Option Nat := fun i d =>
  if i = 1 ∧ d = "a".data then some 100
  else if i = 100 ∧ d = "b".data then some 200
  else if i = 200 ∧ d = "c".data then some 300
  else none

/-- C4 counterexample: with mount point `/mnt/v`, the path `/mnt/v//`
begins with the mount point and its remainder `//` yields no non-empty
component, yet `LookupPathByCache` returns the root inode with no error
(the code only rejects a remainder equal to `""` or `"/"`). -/
theorem lookup_all_slash_returns_root :
    listPre "/mnt/v".data "/mnt/v//".data = true ∧
    (goSplit '/' ("/mnt/v//".data.drop "/mnt/v".data.length)).filter
      (fun d => !d.isEmpty) = [] ∧
    (LookupPathByCache "/mnt/v".data (fun _ _ => none) 1 [] "/mnt/v//".data).res =
      .ok 1 := by
  refine ⟨by decide, by decide, rfl⟩

/-- C4 amended: resolution fails whenever `absPath` does not begin with the
mount point, and whenever the remainder after stripping the mount prefix is
exactly `""` or `"/"`; but when the remainder is some other string whose
split components are all empty (e.g. two or more slashes), it succeeds with
the root inode, touching neither the cache nor the filesystem. -/
theorem lookup_notcfs_conditions (mnt : GoStr) (lk : Nat → GoStr → Option Nat)
    (root : Nat) (m : List (Nat × List (GoStr × Nat))) (p : GoStr) :
    (listPre mnt p = false →
      (LookupPathByCache mnt lk root m p).res = .error "not cfs path") ∧
    (listPre mnt p = true →
      (p.drop mnt.length = [] ∨ p.drop mnt.length = ['/']) →
      (LookupPathByCache mnt lk root m p).res = .error "not cfs file") ∧
    (listPre mnt p = true →
      ¬(p.drop mnt.length = [] ∨ p.drop mnt.length = ['/']) →
      (∀ d ∈ goSplit '/' (p.drop mnt.length), d = ['/'] ∨ d = []) →
      (LookupPathByCache mnt lk root m p).res = .ok root ∧
      (LookupPathByCache mnt lk root m p).cache = m ∧
      (LookupPathByCache mnt lk root m p).fsCalls = []) := by
  refine ⟨?_, ?_, ?_⟩
  · intro h
    rw [LookupPathByCache, if_pos h]
  · intro h hsub
    rw [LookupPathByCache, if_neg (by simp [h]), if_pos hsub]
  · intro h hsub hall
    rw [LookupPathByCache, if_neg (by simp [h]), if_neg hsub,
      lookupLoop_all_empty _ _ _ _ _ _ _ _ hall]
    exact ⟨rfl, rfl, rfl⟩

/-- Witness for C4: `/elsewhere/x` is rejected as not a CFS path, and
`/mnt/v//` (all-slash remainder) resolves to the root inode. -/
theorem lookup_notcfs_conditions_witness :
    (listPre "/mnt/v".data "/elsewhere/x".data = false ∧
      (LookupPathByCache "/mnt/v".data lkAbc 1 [] "/elsewhere/x".data).res =
        .error "not cfs path") ∧
    (LookupPathByCache "/mnt/v".data lkAbc 1 [] "/mnt/v//".data).res = .ok 1 := by
  refine ⟨⟨by decide, ?_⟩, ?_⟩
  · exact (lookup_notcfs_conditions "/mnt/v".data lkAbc 1 [] "/elsewhere/x".data).1
      (by decide)
  · exact ((lookup_notcfs_conditions "/mnt/v".data lkAbc 1 [] "/mnt/v//".data).2.2
      (by decide) (by decide) (by decide)).1

/-- C5 counterexample, refuting both halves of the claim.  First half:
resolve `/mnt/v/a/b/c` (which caches `a` under the root and `b` under
inode 100 as non-last components), then resolve `/mnt/v/a/b` — the second
call is accepted and returns inode 200, but its final component `b` is
served from the cache with no `FS.Lookup` call at all, contradicting "the
final path component is always resolved by calling FS.Lookup".  Second
half: the accepted trailing-slash path `/mnt/v/a/` has raw split
`["", "a", ""]`, so its final path component `a` sits at index 1 ≠ 2 and
its `(a, 100)` pair IS inserted into `lookupDcache` under the root,
contradicting "the resulting (name, inode) pair for that last component is
never inserted". -/
theorem lookup_last_component_cache_hit :
    ((LookupPathByCache "/mnt/v".data lkAbc 1 [] "/mnt/v/a/b/c".data).res =
      .ok 300 ∧
    (LookupPathByCache "/mnt/v".data lkAbc 1
      (LookupPathByCache "/mnt/v".data lkAbc 1 [] "/mnt/v/a/b/c".data).cache
      "/mnt/v/a/b".data).res = .ok 200 ∧
    (LookupPathByCache "/mnt/v".data lkAbc 1
      (LookupPathByCache "/mnt/v".data lkAbc 1 [] "/mnt/v/a/b/c".data).cache
      "/mnt/v/a/b".data).fsCalls = []) ∧
    ((LookupPathByCache "/mnt/v".data lkAbc 1 [] "/mnt/v/a/".data).res =
      .ok 100 ∧
    (goSplit '/' ("/mnt/v/a/".data.drop "/mnt/v".data.length)).filter
      (fun d => !d.isEmpty) = ["a".data] ∧
    (LookupPathByCache "/mnt/v".data lkAbc 1 [] "/mnt/v/a/".data).puts =
      [(1, 1, "a".data)] ∧
    (LookupPathByCache "/mnt/v".data lkAbc 1 [] "/mnt/v/a/".data).cache =
      [(1, [("a".data, 100)])]) := by
  refine ⟨⟨rfl, rfl, rfl⟩, ⟨rfl, by decide, rfl, rfl⟩⟩

/-- C5 amended: caching during path resolution is guarded by the raw
`'/'`-split index — `Put` happens only at an index other than
`len(dirs) - 1`, so the component at the last raw index is never inserted
(for a path not ending in `/` that is the final path component); but for
an accepted trailing-slash path the final non-empty component sits at an
earlier index, and its `(name, inode)` pair IS inserted (witnessed by
`/mnt/v/a/`, raw split `["", "a", ""]`, whose insertion is at index
1 ≠ 2).  When the loop reaches the last-index component with no cache
entry for it under the current inode, `FS.Lookup` is called on it and
nothing is inserted — but a pre-existing cache hit on the final component
advances without any `FS.Lookup` call. -/
theorem lookup_last_component_no_caching :
    ((LookupPathByCache "/mnt/v".data lkAbc 1 [] "/mnt/v/a/".data).puts =
      [(1, 1, "a".data)] ∧
      (1 : Nat) ≠
        (goSplit '/' ("/mnt/v/a/".data.drop "/mnt/v".data.length)).length - 1) ∧
    (∀ (mnt : GoStr) (lk : Nat → GoStr → Option Nat) (root : Nat)
      (m : List (Nat × List (GoStr × Nat))) (p : GoStr) (e : Nat × Nat × GoStr),
      e ∈ (LookupPathByCache mnt lk root m p).puts →
      e.1 ≠ (goSplit '/' (p.drop mnt.length)).length - 1) ∧
    (∀ (lk : Nat → GoStr → Option Nat) (total : Nat) (dir : GoStr)
      (ino : Nat) (m : List (Nat × List (GoStr × Nat)))
      (calls : List (Nat × GoStr)) (puts : List (Nat × Nat × GoStr)),
      ¬(dir = ['/'] ∨ dir = []) →
      (∀ dc, assocFind m ino = some dc → assocFind dc dir = none) →
      (lookupLoop lk total [dir] (total - 1) ino m calls puts).fsCalls =
        calls ++ [(ino, dir)] ∧
      (lookupLoop lk total [dir] (total - 1) ino m calls puts).puts = puts) := by
  refine ⟨⟨rfl, by decide⟩, ?_, ?_⟩
  · intro mnt lk root m p e he
    rw [LookupPathByCache] at he
    split at he
    · cases he
    · split at he
      · cases he
      · rcases lookupLoop_puts_not_last _ _ _ _ _ _ _ _ _ he with h | h
        · cases h
        · exact h
  · intro lk total dir ino m calls puts hdir hmiss
    rcases hm : assocFind m ino with _ | dc
    · rcases hk : lk ino dir with _ | child
      · simp [lookupLoop, if_neg hdir, hm, hk]
      · simp [lookupLoop, if_neg hdir, hm, hk]
    · have hc := hmiss dc hm
      rcases hk : lk ino dir with _ | child
      · simp [lookupLoop, if_neg hdir, hm, hc, hk]
      · simp [lookupLoop, if_neg hdir, hm, hc, hk]

/-- Witness for C5: a concrete insertion from the `/mnt/v/a/b/c` run is at
index 1 ≠ 3, and a concrete last-component miss calls `FS.Lookup`. -/
theorem lookup_last_component_no_caching_witness :
    ((1, 1, "a".data) ∈
      (LookupPathByCache "/mnt/v".data lkAbc 1 [] "/mnt/v/a/b/c".data).puts ∧
      (1 : Nat) ≠
        (goSplit '/' ("/mnt/v/a/b/c".data.drop "/mnt/v".data.length)).length - 1) ∧
    (lookupLoop (fun _ _ => none) 1 ["x".data] 0 1 [] [] []).fsCalls =
      [(1, "x".data)] := by
  constructor
  · constructor
    · decide
    · exact lookup_last_component_no_caching.2.1 "/mnt/v".data lkAbc 1 []
        "/mnt/v/a/b/c".data (1, 1, "a".data) (by decide)
  · have h := (lookup_last_component_no_caching.2.2 (fun _ _ => none) 1 "x".data
      1 [] [] [] (by decide) (fun dc hdc => by simp [assocFind] at hdc)).1
    simpa using h

/-! ## Index registry, dentry-cache map and manager state
(part_000 lines 42-60, 217-277, 297-314, 439-485, 684-726).

`cache.DentryCache` is repository code not under src/; it is modelled from
the spec (§4.2): a name→inode mapping with an absolute expiration set at
construction from `now + validDuration`, resettable by `ResetExpiration`,
queried by `IsExpired`.  Time is an explicit `now : Int` (Unix seconds);
durations are in seconds. -/

/-- Modelled from the spec: `cache.DentryCache` — name→inode entries plus
an absolute expiration timestamp. -/
structure DentryCache where
  entries : List (String × Nat)
  expiresAt : Int
deriving Repr, DecidableEq

/-- Modelled from the spec: `IsExpired()` — the current time is past the
absolute expiration. -/
def DentryCache.isExpired (now : Int) (c : DentryCache) : Bool :=
  decide (c.expiresAt < now)

/-- Modelled from the spec: `ResetExpiration(duration)` — sets a new
absolute expiry `now + duration`. -/
def DentryCache.resetExpiration (now valid : Int) (c : DentryCache) : DentryCache :=
  { c with expiresAt := now + valid }

/-- `DefaultIndexDentryExpiration = 60 * time.Minute`, in seconds. -/
def defaultIndexDentryExpirationSec : Int := 3600

/-- IndexDentryInfo from the source: owning index path plus a dentry cache. -/
structure IndexDentryInfo where
  path : String
  dcache : DentryCache
deriving Repr, DecidableEq

/-- IndexInfo from the source: index path, dataset id, absolute TTL epoch
(0 = never), valid duration in minutes, ordered file list. -/
structure IndexInfo where
  path : String
  datasetCnt : String
  ttl : Int
  validMinute : Int
  fileInfoMap : List FileInfo
deriving Repr, DecidableEq

/-- The PrefetchManager state the registry claims touch: the index
registry, the per-parent-inode dentry-cache map, the app-pid set, the
index-load channel, the closed flag and the metrics counters. -/
structure PrefetchState where
  indexFileInfoMap : List (String × IndexInfo)
  dcacheMap : List (Nat × IndexDentryInfo)
  appPid : List Nat
  indexInfoChan : List IndexInfo
  isClosed : Bool
  totalReadCount : Nat
  appReadCount : Nat
deriving Repr, DecidableEq

/-- The `dcacheMap.Range` body of `resetExistedIndexInfo` (lines 457-464):
reset the expiration of every entry owned by `path` to `dcacheValid`. -/
def resetSweepDcache (now dcacheValid : Int) (m : List (Nat × IndexDentryInfo))
    (path : String) : List (Nat × IndexDentryInfo) :=
  m.map fun e =>
    if e.2.path = path then
      (e.1, { e.2 with dcache := e.2.dcache.resetExpiration now dcacheValid })
    else e

/-- The in-place TTL update of lines 447-454: `ttl = 0` when the refresh
TTL is zero, else `now + ttlMinute` minutes. -/
def refreshedIndexInfo (now ttlMinute : Int) (oldI : IndexInfo) : IndexInfo :=
  if ttlMinute = 0 then { oldI with ttl := 0, validMinute := 0 }
  else { oldI with ttl := now + ttlMinute * 60, validMinute := ttlMinute }

/-- `dcacheValid` of lines 441-454: the default 60 minutes when the refresh
TTL is zero, else the refresh TTL itself. -/
def refreshedDcacheValid (ttlMinute : Int) : Int :=
  if ttlMinute = 0 then defaultIndexDentryExpirationSec else ttlMinute * 60

/-- Shallow embedding of `PrefetchManager.resetExistedIndexInfo`
(lines 439-466).  The source mutates `oldIndexInfo` (the object stored in
the registry) in place; here the updated record is stored back at its key
(`oldI.path`, which equals the registry key by the registry invariant). -/
def resetExistedIndexInfo (now : Int) (st : PrefetchState) (oldI newI : IndexInfo)
    (ttlMinute : Int) : PrefetchState × Bool :=
  if oldI.ttl > 0 ∧ now > oldI.ttl then
    ({ st with indexFileInfoMap := assocStore st.indexFileInfoMap newI.path newI },
      false)
  else
    ({ st with
        indexFileInfoMap := assocStore st.indexFileInfoMap oldI.path
          (refreshedIndexInfo now ttlMinute oldI),
        dcacheMap := resetSweepDcache now (refreshedDcacheValid ttlMinute)
          st.dcacheMap oldI.path },
      true)

/-- Outcome of one `AddIndexFilepath` call. -/
inductive AddIndexResult where
  | resetOk
  | enqueued
  | errNotExist
  | errClosed
deriving Repr, DecidableEq

/-- Tail of `AddIndexFilepath` (lines 309-313): `os.Stat` check, then
`putIndexInfoChan` (lines 769-778) under the closed flag. -/
def addIndexLoadPhase (fileExists : String → Bool) (st : PrefetchState)
    (cand : IndexInfo) : PrefetchState × AddIndexResult :=
  if fileExists cand.path = false then
    ({ st with indexFileInfoMap := assocErase st.indexFileInfoMap cand.path },
      .errNotExist)
  else if st.isClosed then (st, .errClosed)
  else ({ st with indexInfoChan := st.indexInfoChan ++ [cand] }, .enqueued)

/-- Shallow embedding of `PrefetchManager.AddIndexFilepath` (lines 297-314).
`fileExists` models `os.Stat` (false = `IsNotExist`). -/
def AddIndexFilepath (now : Int) (fileExists : String → Bool) (st : PrefetchState)
    (datasetCnt filePath : String) (ttlMinute : Int) :
    PrefetchState × AddIndexResult :=
  let cand : IndexInfo :=
    { path := filePath, datasetCnt := datasetCnt,
      ttl := if ttlMinute > 0 then now + ttlMinute * 60 else 0,
      validMinute := if ttlMinute > 0 then ttlMinute else 0,
      fileInfoMap := [] }
  match assocFind st.indexFileInfoMap filePath with
  | none =>
    addIndexLoadPhase fileExists
      { st with indexFileInfoMap := assocStore st.indexFileInfoMap filePath cand }
      cand
  | some oldI =>
    match resetExistedIndexInfo now st oldI cand ttlMinute with
    | (st1, true) => (st1, .resetOk)
    | (st1, false) => addIndexLoadPhase fileExists st1 cand

/-- The load-and-expiry-check step of `GetDentryCache` (lines 472-480):
`none` when the key is absent, otherwise whether the stored cache is
expired at read time. -/
def getDentryCacheLoadCheck (now : Int) (m : List (Nat × IndexDentryInfo))
    (parIno : Nat) : Option Bool :=
  (assocFind m parIno).map fun di => di.dcache.isExpired now

/-- The `dcacheMap.Delete(parIno)` step of `GetDentryCache` (line 483). -/
def dcacheMapDelete (m : List (Nat × IndexDentryInfo)) (parIno : Nat) :
    List (Nat × IndexDentryInfo) :=
  assocErase m parIno

/-- Shallow embedding of `PrefetchManager.GetDentryCache` (lines 468-485),
including the nil-receiver guard (`pm = none`). -/
def GetDentryCacheM (now : Int) (pm : Option PrefetchState) (parIno : Nat) :
    Option DentryCache × Option PrefetchState :=
  match pm with
  | none => (none, none)
  | some st =>
    match assocFind st.dcacheMap parIno with
    | none => (none, some st)
    | some di =>
      if di.dcache.isExpired now = false then (some di.dcache, some st)
      else (none, some { st with dcacheMap := assocErase st.dcacheMap parIno })

/-- Shallow embedding of `PrefetchManager.PutAppPid` (lines 684-694). -/
def PutAppPidM (pm : Option PrefetchState) (pid : Nat) : Option PrefetchState :=
  match pm with
  | none => none
  | some st =>
    if st.appPid.contains pid then some st
    else some { st with appPid := pid :: st.appPid }

/-- Shallow embedding of `PrefetchManager.DeleteAppPid` (lines 696-704). -/
def DeleteAppPidM (pm : Option PrefetchState) (pid : Nat) : Option PrefetchState :=
  match pm with
  | none => none
  | some st => some { st with appPid := st.appPid.filter (fun q => !(q == pid)) }

/-- Shallow embedding of `PrefetchManager.ContainsAppPid` (lines 706-712). -/
def ContainsAppPidM (pm : Option PrefetchState) (pid : Nat) : Bool :=
  match pm with
  | none => false
  | some st => st.appPid.contains pid

/-- Shallow embedding of `PrefetchManager.AddTotalReadCount` (lines 714-719). -/
def AddTotalReadCountM (pm : Option PrefetchState) : Option PrefetchState :=
  match pm with
  | none => none
  | some st => some { st with totalReadCount := st.totalReadCount + 1 }

/-- Shallow embedding of `PrefetchManager.AddAppReadCount` (lines 721-726). -/
def AddAppReadCountM (pm : Option PrefetchState) : Option PrefetchState :=
  match pm with
  | none => none
  | some st => some { st with appReadCount := st.appReadCount + 1 }

/-- The index-registry sweep of the janitor's 1-minute tick (lines 248-258):
delete exactly the entries with `ttl > 0 && now > ttl`. -/
def cleanSweepIndexMap (now : Int) (m : List (String × IndexInfo)) :
    List (String × IndexInfo) :=
  m.filter fun e => !(decide (e.2.ttl > 0 ∧ now > e.2.ttl))

theorem assocFind_assocStore_self {κ β : Type} [DecidableEq κ]
    (m : List (κ × β)) (k : κ) (v : β) :
    assocFind (assocStore m k v) k = some v := by
  induction m with
  | nil => simp [assocStore, assocFind]
  | cons e rest ih =>
    rcases e with ⟨k', v'⟩
    by_cases h : k' = k <;> simp [assocStore, assocFind, h, ih]

theorem mem_resetSweepDcache_eq (now v : Int) (m : List (Nat × IndexDentryInfo))
    (p : String) (k : Nat) (di : IndexDentryInfo) (hm : (k, di) ∈ m)
    (hp : di.path = p) :
    (k, { di with dcache := { di.dcache with expiresAt := now + v } }) ∈
      resetSweepDcache now v m p := by
  have h := List.mem_map_of_mem
    (f := fun e : Nat × IndexDentryInfo =>
      if e.2.path = p then
        (e.1, { e.2 with dcache := e.2.dcache.resetExpiration now v })
      else e) hm
  simpa [resetSweepDcache, hp, DentryCache.resetExpiration] using h

theorem mem_resetSweepDcache_ne (now v : Int) (m : List (Nat × IndexDentryInfo))
    (p : String) (k : Nat) (di : IndexDentryInfo) (hm : (k, di) ∈ m)
    (hp : di.path ≠ p) :
    (k, di) ∈ resetSweepDcache now v m p := by
  have h := List.mem_map_of_mem
    (f := fun e : Nat × IndexDentryInfo =>
      if e.2.path = p then
        (e.1, { e.2 with dcache := e.2.dcache.resetExpiration now v })
      else e) hm
  simpa [resetSweepDcache, hp] using h

/-- C6: an `AddIndex` on a path with a live (non-expired) registry entry
refreshes that entry in place — `ttl = now + ttlMinutes·60` when
`ttlMinutes > 0`, `ttl = 0` when `ttlMinutes = 0`, file list untouched —
resets the expiration of every `IndexDentryInfo` owned by that path to the
new duration (the 60-minute default when `ttlMinutes = 0`, whose
`validDuration = 0` means default), leaves other owners alone, returns
success, and enqueues no load job. -/
theorem addindex_ttl_refresh_in_place (now : Int) (fe : String → Bool)
    (st : PrefetchState) (dsc fp : String) (ttlMinute : Int) (oldI : IndexInfo)
    (hfind : assocFind st.indexFileInfoMap fp = some oldI)
    (hpath : oldI.path = fp)
    (hlive : ¬(oldI.ttl > 0 ∧ now > oldI.ttl)) :
    (AddIndexFilepath now fe st dsc fp ttlMinute).2 = .resetOk ∧
    (0 < ttlMinute →
      assocFind (AddIndexFilepath now fe st dsc fp ttlMinute).1.indexFileInfoMap fp =
        some { oldI with ttl := now + ttlMinute * 60, validMinute := ttlMinute }) ∧
    (ttlMinute = 0 →
      assocFind (AddIndexFilepath now fe st dsc fp ttlMinute).1.indexFileInfoMap fp =
        some { oldI with ttl := 0, validMinute := 0 }) ∧
    (AddIndexFilepath now fe st dsc fp ttlMinute).1.indexInfoChan =
      st.indexInfoChan ∧
    (∀ (k : Nat) (di : IndexDentryInfo), (k, di) ∈ st.dcacheMap → di.path = fp →
      (k, { di with dcache := { di.dcache with expiresAt := now +
          (if ttlMinute = 0 then defaultIndexDentryExpirationSec
           else ttlMinute * 60) } }) ∈
        (AddIndexFilepath now fe st dsc fp ttlMinute).1.dcacheMap) ∧
    (∀ (k : Nat) (di : IndexDentryInfo), (k, di) ∈ st.dcacheMap → di.path ≠ fp →
      (k, di) ∈ (AddIndexFilepath now fe st dsc fp ttlMinute).1.dcacheMap) := by
  have hred : AddIndexFilepath now fe st dsc fp ttlMinute =
      ({ st with
          indexFileInfoMap := assocStore st.indexFileInfoMap oldI.path
            (refreshedIndexInfo now ttlMinute oldI),
          dcacheMap := resetSweepDcache now (refreshedDcacheValid ttlMinute)
            st.dcacheMap oldI.path }, .resetOk) := by
    rw [AddIndexFilepath]
    simp only [hfind]
    rw [resetExistedIndexInfo, if_neg hlive]
  refine ⟨by rw [hred], ?_, ?_, by rw [hred], ?_, ?_⟩
  · intro h
    rw [hred]
    simp only [hpath]
    rw [assocFind_assocStore_self, refreshedIndexInfo, if_neg (by omega)]
    simp [hpath]
  · intro h
    rw [hred]
    simp only [hpath]
    rw [assocFind_assocStore_self, refreshedIndexInfo, if_pos h]
    simp [hpath]
  · intro k di hm hp
    rw [hred]
    simp only [hpath, refreshedDcacheValid]
    exact mem_resetSweepDcache_eq _ _ _ _ _ _ hm hp
  · intro k di hm hp
    rw [hred]
    simp only [hpath]
    exact mem_resetSweepDcache_ne _ _ _ _ _ _ hm hp

/-- Registry state for the C6 witness: one live entry for `/idx/a.txt`
added at `t0 = 1000` with TTL 5 min (epoch 1300), with one dentry-cache
entry it owns and one owned by another index. -/
def stRefresh : PrefetchState :=
  { indexFileInfoMap :=
      [("/idx/a.txt", ⟨"/idx/a.txt", "2", 1300, 5, [⟨"d1/f1", 101, false⟩]⟩)],
    dcacheMap :=
      [(100, ⟨"/idx/a.txt", ⟨[("f1", 101)], 1300⟩⟩),
       (200, ⟨"/idx/b.txt", ⟨[], 50⟩⟩)],
    appPid := [], indexInfoChan := [], isClosed := false,
    totalReadCount := 0, appReadCount := 0 }

/-- Witness for C6: refreshing `/idx/a.txt` two minutes later
(`now = 1120`) with TTL 10 min moves the entry's epoch to 1720 without
reparsing, leaves the load channel empty, and resets only the owned
dentry cache to expire at 1720. -/
theorem addindex_ttl_refresh_in_place_witness :
    (AddIndexFilepath 1120 (fun _ => true) stRefresh "2" "/idx/a.txt" 10).2 =
      .resetOk ∧
    assocFind (AddIndexFilepath 1120 (fun _ => true) stRefresh "2" "/idx/a.txt"
        10).1.indexFileInfoMap "/idx/a.txt" =
      some ⟨"/idx/a.txt", "2", 1720, 10, [⟨"d1/f1", 101, false⟩]⟩ ∧
    (AddIndexFilepath 1120 (fun _ => true) stRefresh "2" "/idx/a.txt"
        10).1.indexInfoChan = [] ∧
    (100, (⟨"/idx/a.txt", ⟨[("f1", 101)], 1720⟩⟩ : IndexDentryInfo)) ∈
      (AddIndexFilepath 1120 (fun _ => true) stRefresh "2" "/idx/a.txt"
        10).1.dcacheMap ∧
    (200, (⟨"/idx/b.txt", ⟨[], 50⟩⟩ : IndexDentryInfo)) ∈
      (AddIndexFilepath 1120 (fun _ => true) stRefresh "2" "/idx/a.txt"
        10).1.dcacheMap := by
  have h := addindex_ttl_refresh_in_place 1120 (fun _ => true) stRefresh "2"
    "/idx/a.txt" 10 ⟨"/idx/a.txt", "2", 1300, 5, [⟨"d1/f1", 101, false⟩]⟩
    (by decide) (by decide) (by decide)
  refine ⟨h.1, ?_, h.2.2.2.1, ?_, ?_⟩
  · have h2 := h.2.1 (by decide)
    simpa using h2
  · have h5 := h.2.2.2.2.1 100 ⟨"/idx/a.txt", ⟨[("f1", 101)], 1300⟩⟩
      (by decide) (by decide)
    simpa using h5
  · exact h.2.2.2.2.2 200 ⟨"/idx/b.txt", ⟨[], 50⟩⟩ (by decide) (by decide)

/-- Map used by the C7 counterexample: parent inode 7 holds a cache owned
by `/idx/a.txt` that expired at epoch 5. -/
def raceDcacheMap : List (Nat × IndexDentryInfo) :=
  [(7, ⟨"/idx/a.txt", ⟨[("f1", 101)], 5⟩⟩)]

/-- C7 counterexample: `GetDentryCache`'s expiry check (map load) and its
`Delete` are two separate atomic map operations.  At `now = 10` the reader
finds the cache at inode 7 expired; between that check and the delete, a
concurrent `resetExistedIndexInfo` sweep resets the owner's caches to a
10-minute validity, making the stored cache non-expired; the reader's
`Delete` then removes that non-expired cache — so the removal is not
atomic with respect to the check, contradicting "no concurrent operation
can observe or lose a non-expired replacement due to the removal". -/
theorem getdentrycache_delete_races_reset :
    getDentryCacheLoadCheck 10 raceDcacheMap 7 = some true ∧
    getDentryCacheLoadCheck 10 (resetSweepDcache 10 600 raceDcacheMap
      "/idx/a.txt") 7 = some false ∧
    dcacheMapDelete (resetSweepDcache 10 600 raceDcacheMap "/idx/a.txt") 7 =
      [] := by
  refine ⟨by decide, by decide, by decide⟩

/-- C7 amended: sequentially, `GetDentryCache` never returns an expired
cache — it yields either `nil` or a cache that failed `IsExpired` — and
when the stored cache is expired at read time the map entry is deleted
(a single map-delete step); but the check and the delete are separate
atomic operations, not one atomic action. -/
theorem getdentrycache_liveness (now : Int) (st : PrefetchState) (p : Nat) :
    (∀ c, (GetDentryCacheM now (some st) p).1 = some c →
      c.isExpired now = false) ∧
    (∀ di, assocFind st.dcacheMap p = some di →
      di.dcache.isExpired now = true →
      (GetDentryCacheM now (some st) p).1 = none ∧
      (GetDentryCacheM now (some st) p).2 =
        some { st with dcacheMap := assocErase st.dcacheMap p }) := by
  constructor
  · intro c hc
    rw [GetDentryCacheM] at hc
    rcases hm : assocFind st.dcacheMap p with _ | di <;> rw [hm] at hc
    · simp at hc
    · by_cases he : di.dcache.isExpired now = false
      · simp [he] at hc
        rw [← hc]
        exact he
      · simp [he] at hc
  · intro di hdi he
    rw [GetDentryCacheM]
    simp [hdi, he]

/-- Witness for C7: at `now = 10` a cache expiring at 50 is returned and
is not expired; the expired cache of `raceDcacheMap` yields `nil` and its
entry is removed. -/
theorem getdentrycache_liveness_witness :
    ((GetDentryCacheM 10 (some { stRefresh with
        dcacheMap := [(7, ⟨"/idx/a.txt", ⟨[("f1", 101)], 50⟩⟩)] }) 7).1 =
      some ⟨[("f1", 101)], 50⟩ ∧
      DentryCache.isExpired 10 ⟨[("f1", 101)], 50⟩ = false) ∧
    ((GetDentryCacheM 10 (some { stRefresh with dcacheMap := raceDcacheMap })
        7).1 = none ∧
      (GetDentryCacheM 10 (some { stRefresh with dcacheMap := raceDcacheMap })
        7).2 = some { stRefresh with dcacheMap := [] }) := by
  constructor
  · refine ⟨by decide, ?_⟩
    exact (getdentrycache_liveness 10 { stRefresh with
      dcacheMap := [(7, ⟨"/idx/a.txt", ⟨[("f1", 101)], 50⟩⟩)] } 7).1
      ⟨[("f1", 101)], 50⟩ (by decide)
  · have h := (getdentrycache_liveness 10
      { stRefresh with dcacheMap := raceDcacheMap } 7).2
      ⟨"/idx/a.txt", ⟨[("f1", 101)], 5⟩⟩ (by decide) (by decide)
    exact ⟨h.1, by rw [h.2]; decide⟩

/-- C8: every janitor sweep of the index registry deletes an entry exactly
when `ttlEpoch > 0 ∧ now > ttlEpoch`; consequently an entry with
`ttlEpoch = 0` survives every sequence of sweeps. -/
theorem janitor_ttl_sweep :
    (∀ (now : Int) (m : List (String × IndexInfo)) (k : String)
      (info : IndexInfo), (k, info) ∈ m →
      ((k, info) ∈ cleanSweepIndexMap now m ↔
        ¬(info.ttl > 0 ∧ now > info.ttl))) ∧
    (∀ (times : List Int) (m : List (String × IndexInfo)) (k : String)
      (info : IndexInfo), (k, info) ∈ m → info.ttl = 0 →
      (k, info) ∈ times.foldl (fun acc t => cleanSweepIndexMap t acc) m) := by
  constructor
  · intro now m k info hm
    rw [cleanSweepIndexMap, List.mem_filter]
    simp [hm]
    omega
  · intro times
    induction times with
    | nil => intro m k info hm _; simpa using hm
    | cons t rest ih =>
      intro m k info hm httl
      have hmem : (k, info) ∈ cleanSweepIndexMap t m := by
        rw [cleanSweepIndexMap]
        exact List.mem_filter.2 ⟨hm, by simp [httl]⟩
      exact ih _ _ _ hmem httl

/-- Witness for C8: with `now = 10`, the never-expiring entry survives one
sweep and a sequence of sweeps while an expired entry is removed. -/
theorem janitor_ttl_sweep_witness :
    (("/idx/a.txt", (⟨"/idx/a.txt", "2", 0, 0, []⟩ : IndexInfo)) ∈
      cleanSweepIndexMap 10
        [("/idx/a.txt", ⟨"/idx/a.txt", "2", 0, 0, []⟩),
         ("/idx/b.txt", ⟨"/idx/b.txt", "3", 5, 1, []⟩)] ∧
      ¬(("/idx/b.txt", (⟨"/idx/b.txt", "3", 5, 1, []⟩ : IndexInfo)) ∈
        cleanSweepIndexMap 10
          [("/idx/a.txt", ⟨"/idx/a.txt", "2", 0, 0, []⟩),
           ("/idx/b.txt", ⟨"/idx/b.txt", "3", 5, 1, []⟩)])) ∧
    ("/idx/a.txt", (⟨"/idx/a.txt", "2", 0, 0, []⟩ : IndexInfo)) ∈
      List.foldl (fun acc t => cleanSweepIndexMap t acc)
        [("/idx/a.txt", ⟨"/idx/a.txt", "2", 0, 0, []⟩)] [10, 100, 1000] := by
  refine ⟨⟨?_, ?_⟩, ?_⟩
  · exact (janitor_ttl_sweep.1 10 _ "/idx/a.txt" ⟨"/idx/a.txt", "2", 0, 0, []⟩
      (by decide)).2 (by decide)
  · intro hmem
    have h := (janitor_ttl_sweep.1 10 _ "/idx/b.txt"
      ⟨"/idx/b.txt", "3", 5, 1, []⟩ (by decide)).1 hmem
    exact h (by decide)
  · exact janitor_ttl_sweep.2 [10, 100, 1000] _ "/idx/a.txt"
      ⟨"/idx/a.txt", "2", 0, 0, []⟩ (by decide) (by decide)

/-- C10: every public operation with a nil-receiver guard is safe on a nil
`PrefetchManager`: `GetDentryCache` returns nil, `ContainsAppPid` returns
false, and `PutAppPid`, `DeleteAppPid`, `AddTotalReadCount`,
`AddAppReadCount` are no-ops leaving the (absent) state unchanged. -/
theorem nil_receiver_safe (now : Int) (p pid : Nat) :
    GetDentryCacheM now none p = (none, none) ∧
    ContainsAppPidM none pid = false ∧
    PutAppPidM none pid = none ∧
    DeleteAppPidM none pid = none ∧
    AddTotalReadCountM none = none ∧
    AddAppReadCountM none = none :=
  ⟨rfl, rfl, rfl, rfl, rfl, rfl⟩

/-! ## Index-file line parsing: `PrefetchManager.readIndexFileByLine`
(part_000 lines 345-377).

Each scanned line is processed as
`strings.TrimSpace(strings.Replace(line, mountPoint, "", 1))` and appended
as a `FileInfo`.  `strings.Replace(s, old, "", 1)` removes the first
occurrence of `old` anywhere in `s`, not only a prefix. -/

/-- Whether `c` is whitespace for Go `unicode.IsSpace` (the Latin-1 range). -/
def goIsSpace (c : Char) : Bool :=
  c = ' ' || c = '\t' || c = '\n' || c = '\x0b' || c = '\x0c' || c = '\r' ||
    c = '\x85' || c = '\xa0'

/-- Go `strings.TrimSpace`. -/
def trimSpace (s : GoStr) : GoStr :=
  ((s.dropWhile goIsSpace).reverse.dropWhile goIsSpace).reverse

/-- Go `strings.Replace(s, pat, "", 1)`: remove the leftmost occurrence of
`pat` from `s` (no change when `pat` does not occur; the empty pattern
matches at the start and removes nothing). -/
def replaceOnce (pat : GoStr) : GoStr → GoStr
  | [] => []
  | c :: rest =>
    if listPre pat (c :: rest) then (c :: rest).drop pat.length
    else c :: replaceOnce pat rest

/-- Whether `pat` occurs as a contiguous run anywhere in the string. -/
def occursIn (pat : GoStr) : GoStr → Bool
  | [] => pat.isEmpty
  | c :: rest => listPre pat (c :: rest) || occursIn pat rest

/-- The per-line processing of line 364:
`TrimSpace(Replace(line, mountPoint, "", 1))`. -/
def processLine (mount line : GoStr) : GoStr :=
  trimSpace (replaceOnce mount line)

/-- Shallow embedding of the scan loop of `readIndexFileByLine`
(lines 361-370): one `FileInfo` per line, in order, inode unresolved. -/
def readIndexFileByLine (mount : GoStr) (lines : List GoStr) : List FileInfo :=
  lines.map fun l => { path := String.mk (processLine mount l), inoID := 0, isAbs := false }

theorem replaceOnce_of_listPre (pat s : GoStr) (h : listPre pat s = true) :
    replaceOnce pat s = s.drop pat.length := by
  cases s with
  | nil =>
    cases pat with
    | nil => rfl
    | cons p ps => simp [listPre] at h
  | cons c rest => rw [replaceOnce, if_pos h]

theorem replaceOnce_of_not_occurs (pat s : GoStr) (h : occursIn pat s = false) :
    replaceOnce pat s = s := by
  induction s with
  | nil => rfl
  | cons c rest ih =>
    rw [occursIn, Bool.or_eq_false_iff] at h
    rw [replaceOnce, if_neg (by simp [h.1]), ih h.2]

/-- C9 counterexample: with mount point `/mnt/v`, the line
`/data/mnt/v/f` does **not** begin with the mount point, yet the stored
path is `/data/f`: `strings.Replace(line, mountPoint, "", 1)` removes the
first occurrence anywhere, so the line is not "kept intact apart from
whitespace trimming". -/
theorem index_line_midpath_mangled :
    listPre "/mnt/v".data "/data/mnt/v/f".data = false ∧
    processLine "/mnt/v".data "/data/mnt/v/f".data = "/data/f".data ∧
    trimSpace "/data/mnt/v/f".data = "/data/mnt/v/f".data ∧
    processLine "/mnt/v".data "/data/mnt/v/f".data ≠
      trimSpace "/data/mnt/v/f".data := by
  refine ⟨by decide, by decide, by decide, by decide⟩

/-- C9 amended: the file list holds one `FileInfo` per line in original
order, each storing `TrimSpace` of the line with the **first occurrence**
of the mount point (anywhere in the line) removed; in particular a line
beginning with the mount point has that prefix stripped, and a line in
which the mount point does not occur at all is kept intact apart from
whitespace trimming. -/
theorem index_line_processing (mount : GoStr) (lines : List GoStr) :
    (readIndexFileByLine mount lines).length = lines.length ∧
    (∀ i : Nat, (readIndexFileByLine mount lines)[i]? =
      (lines[i]?).map fun l =>
        { path := String.mk (processLine mount l), inoID := 0, isAbs := false }) ∧
    (∀ l : GoStr, listPre mount l = true →
      processLine mount l = trimSpace (l.drop mount.length)) ∧
    (∀ l : GoStr, occursIn mount l = false →
      processLine mount l = trimSpace l) := by
  refine ⟨by simp [readIndexFileByLine], ?_, ?_, ?_⟩
  · intro i
    simp [readIndexFileByLine]
  · intro l h
    rw [processLine, replaceOnce_of_listPre _ _ h]
  · intro l h
    rw [processLine, replaceOnce_of_not_occurs _ _ h]

/-- Witness for C9: the prefixed line `/mnt/v/d1/f1` is stored as
`/d1/f1`, and a mount-free line ` /idx/x ` is stored as its trimmed self. -/
theorem index_line_processing_witness :
    readIndexFileByLine "/mnt/v".data ["/mnt/v/d1/f1".data, " /idx/x ".data] =
      [⟨"/d1/f1", 0, false⟩, ⟨"/idx/x", 0, false⟩] ∧
    (listPre "/mnt/v".data "/mnt/v/d1/f1".data = true ∧
      processLine "/mnt/v".data "/mnt/v/d1/f1".data =
        trimSpace ("/mnt/v/d1/f1".data.drop "/mnt/v".data.length)) ∧
    (occursIn "/mnt/v".data " /idx/x ".data = false ∧
      processLine "/mnt/v".data " /idx/x ".data = trimSpace " /idx/x ".data) := by
  refine ⟨by decide, ⟨by decide, ?_⟩, ⟨by decide, ?_⟩⟩
  · exact (index_line_processing "/mnt/v".data []).2.2.1 "/mnt/v/d1/f1".data
      (by decide)
  · exact (index_line_processing "/mnt/v".data []).2.2.2 " /idx/x ".data
      (by decide)

end Prefetch
